import Mathlib

/-!
# Verification of the `nied` procedural image-compositing core

Shallow embedding of the sources in `src/`:
`color.rs` (the `Color` value and its compositing algebra),
`source.rs` (the `Source` contract, `Borders`, and the `Offset`, `Scale`,
`Blur` and slice/stack combinators) and `make.rs` (the rasterizer).

Modelling conventions:
* `f32` values are modelled as exact rationals (`ℚ`); the embedding keeps the
  exact arithmetic structure of the code (`lerp`, reciprocal factors,
  truncating casts) and does not model IEEE-754 rounding.
* `i32` values are modelled as `Int` together with explicit wrapping
  (`wrap32`) and saturating-cast (`i32cast`) operations exactly where the
  Rust code uses `wrapping_sub` / `wrapping_add` / `as i32`.
* `u8` output bytes are `Nat` in `[0, 255]`; the Rust saturating `as u8`
  cast from `f32` is `byteOfChannel`.
* The rasterizer's parallel loop is order-independent per chunk, so it is
  modelled as the list of chunks indexed by `n`.
-/

/-- The wrapping normalisation of an integer into the `i32` range
`[-2^31, 2^31)`; `wrap32 (a - b)` models `a.wrapping_sub(b)`. -/
def wrap32 (n : Int) : Int := (n + 2 ^ 31) % 2 ^ 32 - 2 ^ 31

/-- Truncation of a rational toward zero, as Rust's `f32::trunc` /
the integral part used by `as i32`. -/
def ratTrunc (q : ℚ) : Int := if 0 ≤ q then ⌊q⌋ else -⌊-q⌋

/-- Rust's saturating `as i32` cast from `f32`: truncate toward zero and
clamp into the `i32` range. -/
def i32cast (q : ℚ) : Int := max (-(2 ^ 31)) (min (2 ^ 31 - 1) (ratTrunc q))

/-- Rust's saturating `as u8` cast from `f32`: truncate toward zero and
clamp into `[0, 255]`. -/
def byteOfChannel (q : ℚ) : Int := max 0 (min 255 (ratTrunc q))

/-- `f32::EPSILON = 2^-23`: the threshold of `Color::is_visible` and of the
assertion in `Scale::new`. -/
def f32Epsilon : ℚ := 1 / 2 ^ 23

/-- `Color` from `color.rs`: a 4-channel r,g,b,a value; `f32` channels are
modelled as exact rationals. -/
structure Color where
  r : ℚ
  g : ℚ
  b : ℚ
  a : ℚ
deriving DecidableEq, Repr

/-- `Color::default()`: all channels zero (fully transparent black). -/
def Color.zero : Color := ⟨0, 0, 0, 0⟩

/-- The free function `lerp` from `color.rs`: `x + t * (y - x)`. -/
def lerp (x y t : ℚ) : ℚ := x + t * (y - x)

namespace Color

/-- `Color::is_transparent`: the alpha channel is strictly below 1. -/
def is_transparent (c : Color) : Bool := c.a < 1

/-- `Color::is_visible`: the alpha channel exceeds `f32::EPSILON`. -/
def is_visible (c : Color) : Bool := decide (f32Epsilon < c.a)

/-- `Color::overlay` from `color.rs`: per-channel `lerp` by the top alpha,
and `max` for the alpha channel. -/
def overlay (c rhs : Color) : Color :=
  { r := lerp c.r rhs.r rhs.a
    g := lerp c.g rhs.g rhs.a
    b := lerp c.b rhs.b rhs.a
    a := max c.a rhs.a }

/-- `Color::lerp` from `color.rs`: per-channel linear interpolation. -/
def lerpc (c rhs : Color) (t : ℚ) : Color :=
  { r := lerp c.r rhs.r t
    g := lerp c.g rhs.g t
    b := lerp c.b rhs.b t
    a := lerp c.a rhs.a t }

/-- `impl Add for Color`: componentwise addition. -/
def add (c rhs : Color) : Color :=
  ⟨c.r + rhs.r, c.g + rhs.g, c.b + rhs.b, c.a + rhs.a⟩

/-- `impl Mul<f32> for Color`: componentwise scaling. -/
def scaleBy (c : Color) (t : ℚ) : Color := ⟨c.r * t, c.g * t, c.b * t, c.a * t⟩

/-- `Color::into_byte_array`: each channel times 255, truncated toward zero
and saturated into a byte (Rust `as u8` on `f32`). -/
def into_byte_array (c : Color) : List Int :=
  [byteOfChannel (c.r * 255), byteOfChannel (c.g * 255),
   byteOfChannel (c.b * 255), byteOfChannel (c.a * 255)]

end Color

/-- `Borders` from `source.rs`: an inclusive rectangle, `w` on the x axis and
`h` on the y axis. -/
structure Borders where
  w : Int × Int
  h : Int × Int
deriving DecidableEq, Repr

/-- `Borders::contains`: inclusive membership on both axes. -/
def Borders.contains (b : Borders) (p : Int × Int) : Bool :=
  decide (b.w.1 ≤ p.1 ∧ p.1 ≤ b.w.2 ∧ b.h.1 ≤ p.2 ∧ p.2 ≤ b.h.2)

/-- The `Source` trait: a total colour query over integer coordinates plus an
optional bounding rectangle. A value of `Src` is one implementor. -/
structure Src where
  source : Int × Int → Color
  borders : Option Borders := none

/-- `impl Source for Color`: a constant field, no borders. -/
def constSrc (c : Color) : Src := { source := fun _ => c }

/-- `Offset` from `source.rs`: queries the child at the coordinates with the
offset subtracted by `wrapping_sub`, and maps the child borders with the same
`wrapping_sub` of the offset on min and max. -/
def Offset.src (s : Src) (off : Int × Int) : Src where
  source := fun p => s.source (wrap32 (p.1 - off.1), wrap32 (p.2 - off.2))
  borders := s.borders.map fun b =>
    { w := (wrap32 (b.w.1 - off.1), wrap32 (b.w.2 - off.1))
      h := (wrap32 (b.h.1 - off.2), wrap32 (b.h.2 - off.2)) }

/-- `Filter` from `source.rs` (named `SFilter` here to avoid the clash with the root `Filter` of Mathlib). -/
inductive SFilter where
  | Near
  | Linear
deriving DecidableEq, Repr

/-- The inner helper `linear_points` of `Scale::source`: truncating cast to
`i32`, fractional part of the absolute value, and the three-way comparison
with 0.5 choosing the second sample point and the weight. -/
def linear_points (v : ℚ) : Int × Int × ℚ :=
  let a := i32cast v
  let f := Int.fract |v|
  if f < 1 / 2 then (a, wrap32 (a - 1), 1 / 2 - f)
  else if f = 1 / 2 then (a, a, 0)
  else (a, wrap32 (a + 1), f - 1 / 2)

/-- The body of `impl Source for Scale` from `source.rs`, with `factor` the
constructor argument (the struct stores the reciprocal `1 / factor`, which is
what multiplies coordinates and divides borders). -/
def Scale.src (s : Src) (factor : ℚ) (filter : SFilter) : Src :=
  let fac := 1 / factor
  { source := fun p =>
      let x := fac * (p.1 : ℚ)
      let y := fac * (p.2 : ℚ)
      match filter with
      | .Near => s.source (i32cast x, i32cast y)
      | .Linear =>
        let px := linear_points x
        let py := linear_points y
        let x0 := px.1; let x1 := px.2.1; let xt := px.2.2
        let y0 := py.1; let y1 := py.2.1; let yt := py.2.2
        if x0 = x1 then
          if y0 = y1 then s.source (x0, y0)
          else (s.source (x0, y0)).lerpc (s.source (x0, y1)) yt
        else
          if y0 = y1 then (s.source (x0, y0)).lerpc (s.source (x1, y0)) xt
          else
            let c0 := (s.source (x0, y0)).lerpc (s.source (x1, y0)) xt
            let c1 := (s.source (x0, y1)).lerpc (s.source (x1, y1)) xt
            c0.lerpc c1 yt
    borders := s.borders.map fun b =>
      { w := (i32cast ((b.w.1 : ℚ) / fac), i32cast ((b.w.2 : ℚ) / fac))
        h := (i32cast ((b.h.1 : ℚ) / fac), i32cast ((b.h.2 : ℚ) / fac)) } }

/-- `Scale::new` from `source.rs`: asserts `factor > f32::EPSILON` (panics
otherwise, modelled as `none`), then stores the reciprocal. -/
def Scale.new (s : Src) (factor : ℚ) (filter : SFilter) : Option Src :=
  if f32Epsilon < factor then some (Scale.src s factor filter) else none

/-- The list of integers of the Rust range `a..b`. -/
def intRange (a b : Int) : List Int := (List.range (b - a).toNat).map fun i => a + i

/-- The iteration order of the nested loops of `Blur::source`: `dy` outer and
`dx` inner, both over `-radius..radius`, pairs as `(dx, dy)`. -/
def Blur.offsets (r : Int) : List (Int × Int) :=
  (intRange (-r) r).flatMap fun dy => (intRange (-r) r).map fun dx => (dx, dy)

/-- The accumulation loop of `Blur::source`: sum the child colour and count a
sample at each offset with `dx*dx + dy*dy < r*r`. -/
def blurLoop (s : Src) (r : Int) (p : Int × Int) : Color × Nat :=
  (Blur.offsets r).foldl
    (fun acc d =>
      if d.1 * d.1 + d.2 * d.2 < r * r then
        ((acc.1.add (s.source (p.1 + d.1, p.2 + d.2))), acc.2 + 1)
      else acc)
    (Color.zero, 0)

/-- The tail of `Blur::source` after the borders early-out: run the loop,
then multiply by the reciprocal of the count only when it is positive. -/
def blurCore (s : Src) (r : Int) (p : Int × Int) : Color :=
  let res := blurLoop s r p
  if 0 < res.2 then res.1.scaleBy (1 / (res.2 : ℚ)) else res.1

/-- The rectangle expansion of `Blur::borders`: the radius is subtracted from
the minima by `wrapping_sub` and added to the maxima by `wrapping_add`. -/
def expandBorders (b : Borders) (r : Int) : Borders :=
  { w := (wrap32 (b.w.1 - r), wrap32 (b.w.2 + r))
    h := (wrap32 (b.h.1 - r), wrap32 (b.h.2 + r)) }

/-- `Blur` from `source.rs`: `Blur::new` takes a `u8` radius widened to `i32`.
`source` returns the default colour at points outside the blur's own borders
(when defined) and otherwise averages the disc samples; `borders` expands the
child rectangle by the radius with wrapping arithmetic. -/
def Blur.src (s : Src) (radius : Nat) : Src :=
  let r : Int := radius
  { source := fun p =>
      match s.borders with
      | some b => if (expandBorders b r).contains p then blurCore s r p else Color.zero
      | none => blurCore s r p
    borders := s.borders.map fun b => expandBorders b r }

/-- The loop of `impl Source for [S]`: overlay each queried colour onto the
accumulator and stop as soon as the accumulator is no longer transparent. -/
def stackGo (ss : List Src) (p : Int × Int) (res : Color) : Color :=
  match ss with
  | [] => res
  | s :: rest =>
    let res := res.overlay (s.source p)
    if ¬ res.is_transparent then res else stackGo rest p res

/-- `impl Source for [S]` from `source.rs`: fold from the default colour;
no borders for a slice. -/
def Stack.src (ss : List Src) : Src :=
  { source := fun p => stackGo ss p Color.zero }

/-- Instrumented run of the slice loop: the result colour together with the
number of elements whose `source` was invoked. -/
def stackRun (ss : List Src) (p : Int × Int) (res : Color) : Color × Nat :=
  match ss with
  | [] => (res, 0)
  | s :: rest =>
    let res := res.overlay (s.source p)
    if ¬ res.is_transparent then (res, 1)
    else
      let rec' := stackRun rest p res
      (rec'.1, rec'.2 + 1)

/-- `make` from `make.rs`: the flat row of output bytes. Chunk `n` of 4 bytes
holds the byte array of the colour sampled at `x = n % width` and
`y = n / height` (the `as _` casts from `u32` to `i32` wrap). -/
def make (s : Src) (width height : Nat) : List Int :=
  (List.range (width * height)).flatMap fun n =>
    (s.source (wrap32 ((n % width : Nat) : Int),
               wrap32 ((n / height : Nat) : Int))).into_byte_array

/-- The offsets of the blur loop that actually contribute a sample: those with
`dx*dx + dy*dy < r*r`, in loop order. -/
def discOffsets (r : Int) : List (Int × Int) :=
  (Blur.offsets r).filter fun d => decide (d.1 * d.1 + d.2 * d.2 < r * r)

/-- Componentwise sum of a list of colours, starting from the default. -/
def colorListSum (l : List Color) : Color := l.foldl Color.add Color.zero

/-- The averaging formula of the blur claim: the sum of the child colours over
exactly the contributing offsets, multiplied by the reciprocal of their
count. -/
def blurFormula (s : Src) (r : Int) (p : Int × Int) : Color :=
  (colorListSum ((discOffsets r).map fun d => s.source (p.1 + d.1, p.2 + d.2))).scaleBy
    (1 / ((discOffsets r).length : ℚ))

/-- The Linear filter written as one uniform bilinear interpolation: two 1-D
lerps along x then one lerp along y over the sample points and weights of
`linear_points` (degenerate axes collapse because `lerpc` of equal colours is
the colour itself). -/
def scaleLinearSpec (s : Src) (factor : ℚ) (p : Int × Int) : Color :=
  let px := linear_points ((1 / factor) * (p.1 : ℚ))
  let py := linear_points ((1 / factor) * (p.2 : ℚ))
  let c0 := (s.source (px.1, py.1)).lerpc (s.source (px.2.1, py.1)) px.2.2
  let c1 := (s.source (px.1, py.2.1)).lerpc (s.source (px.2.1, py.2.1)) px.2.2
  c0.lerpc c1 py.2.2

/-- The point selection written in the claim's words, with `floor` in place of
the code's truncation toward zero; stated only to be compared against
`linear_points`. -/
def linear_points_floor (v : ℚ) : Int × Int × ℚ :=
  let a := ⌊v⌋
  let f := Int.fract |v|
  if f < 1 / 2 then (a, a - 1, 1 / 2 - f)
  else if f = 1 / 2 then (a, a, 0)
  else (a, a + 1, f - 1 / 2)

/-- The bilinear interpolation prescribed by the claim, over the floor-based
sample points of `linear_points_floor`. -/
def scaleLinearFloorSpec (s : Src) (factor : ℚ) (p : Int × Int) : Color :=
  let px := linear_points_floor ((1 / factor) * (p.1 : ℚ))
  let py := linear_points_floor ((1 / factor) * (p.2 : ℚ))
  let c0 := (s.source (px.1, py.1)).lerpc (s.source (px.2.1, py.1)) px.2.2
  let c1 := (s.source (px.1, py.2.1)).lerpc (s.source (px.2.1, py.2.1)) px.2.2
  c0.lerpc c1 py.2.2

/-- A source whose red channel is the x coordinate; distinguishes which
sample points an interpolating filter reads. -/
def xRamp : Src := { source := fun p => ⟨(p.1 : ℚ), 0, 0, 0⟩ }

/-- A source whose alpha channel is the y coordinate; distinguishes which row
a rasterized pixel was sampled from. -/
def alphaRamp : Src := { source := fun p => ⟨0, 0, 0, (p.2 : ℚ)⟩ }

/-- A 1-by-1 opaque white source with borders `(0,0)-(0,0)`, as an `Image` of
size 1 by 1 presents itself to the combinators. -/
def unitBox : Src :=
  { source := fun p => if p = (0, 0) then ⟨1, 1, 1, 1⟩ else Color.zero
    borders := some { w := (0, 0), h := (0, 0) } }

/-- A source that reports the 1-by-1 rectangle `(0,0)-(0,0)` as borders yet
produces opaque white everywhere; the trait allows this, since borders are an
optimisation hint rather than a guarantee. -/
def liarBox : Src :=
  { source := fun _ => ⟨1, 1, 1, 1⟩
    borders := some { w := (0, 0), h := (0, 0) } }

/-! ## Helper lemmas -/

theorem Color.lerpc_self (c : Color) (t : ℚ) : c.lerpc c t = c := by
  cases c
  simp [Color.lerpc, lerp]

theorem wrap32_fixed {x : Int} (h1 : -(2 ^ 31) ≤ x) (h2 : x < 2 ^ 31) : wrap32 x = x := by
  unfold wrap32
  omega

theorem wrap32_sub_cancel (a b : Int) : wrap32 (wrap32 a - b) = wrap32 (a - b) := by
  unfold wrap32
  omega

theorem ratTrunc_intCast (n : Int) : ratTrunc (n : ℚ) = n := by
  unfold ratTrunc
  split
  · simp
  · rw [← Int.cast_neg, Int.floor_intCast]
    omega

theorem i32cast_intCast {n : Int} (h1 : -(2 ^ 31) ≤ n) (h2 : n < 2 ^ 31) :
    i32cast (n : ℚ) = n := by
  unfold i32cast
  rw [ratTrunc_intCast]
  omega

/-! ## The claims -/

/-- Claim C3: `Color::overlay` composes by the exact per-channel lerp with the
top alpha as parameter — `r = a.r + b.a * (b.r - a.r)` and likewise for `g`
and `b` — and takes the maximum of the two alphas, rather than the standard
Porter-Duff over-alpha `b.a + a.a * (1 - b.a)`. -/
theorem overlay_lerp_max_formula (a b : Color) :
    a.overlay b = ⟨a.r + b.a * (b.r - a.r), a.g + b.a * (b.g - a.g),
                   a.b + b.a * (b.b - a.b), max a.a b.a⟩ := rfl

/-- Claim C10: sampling an empty sequence of sources returns the default
colour `(0, 0, 0, 0)` — the fold's initial accumulator unchanged. -/
theorem stack_empty_default (p : Int × Int) :
    (Stack.src []).source p = ⟨0, 0, 0, 0⟩ := rfl

/-- Claim C4: the slice implementation folds left to right from the default
transparent colour, overlaying each queried colour and stopping once the
accumulator is opaque; when the first source is fully opaque at a
coordinate, the result is the first source's colour alone and exactly one
source is queried. -/
theorem stack_opaque_first_layer (s : Src) (rest : List Src) (p : Int × Int)
    (h : (s.source p).a = 1) :
    (Stack.src (s :: rest)).source p = s.source p ∧
    stackRun (s :: rest) p Color.zero = (s.source p, 1) := by
  have hov : Color.zero.overlay (s.source p) = s.source p := by
    have hc : s.source p = ⟨(s.source p).r, (s.source p).g, (s.source p).b, 1⟩ := by
      rw [← h]
    rw [hc]
    simp [Color.overlay, Color.zero, lerp]
  have ht : (s.source p).is_transparent = false := by
    simp [Color.is_transparent, h]
  constructor
  · simp [Stack.src, stackGo, hov, ht]
  · simp [stackRun, hov, ht]

/-- Claim C6: translation by `Offset` is invertible modulo the wrapping `i32`
arithmetic — querying the offset source at the translated coordinates gives
the child's colour at the original coordinates. -/
theorem offset_translation_invertible (s : Src) (dx dy x y : Int)
    (hx1 : -(2 ^ 31) ≤ x) (hx2 : x < 2 ^ 31)
    (hy1 : -(2 ^ 31) ≤ y) (hy2 : y < 2 ^ 31) :
    (Offset.src s (dx, dy)).source (wrap32 (x + dx), wrap32 (y + dy)) =
      s.source (x, y) := by
  simp only [Offset.src]
  rw [wrap32_sub_cancel, wrap32_sub_cancel, add_sub_cancel_right, add_sub_cancel_right,
    wrap32_fixed hx1 hx2, wrap32_fixed hy1 hy2]

/-- Witness for claim C6 at `dx = 5`, `dy = -3`, `x = 10`, `y = 20`. -/
theorem offset_translation_invertible_witness :
    (Offset.src (constSrc ⟨1, 0, 0, 1⟩) (5, -3)).source (wrap32 (10 + 5), wrap32 (20 + -3)) =
      (constSrc ⟨1, 0, 0, 1⟩).source (10, 20) :=
  offset_translation_invertible (constSrc ⟨1, 0, 0, 1⟩) 5 (-3) 10 20
    (by decide) (by decide) (by decide) (by decide)

/-- Claim C8: `Scale` with factor 1 and the `Near` filter is the identity on
sampling at every representable `i32` coordinate. -/
theorem scale_one_near_identity (s : Src) (x y : Int)
    (hx1 : -(2 ^ 31) ≤ x) (hx2 : x < 2 ^ 31)
    (hy1 : -(2 ^ 31) ≤ y) (hy2 : y < 2 ^ 31) :
    (Scale.src s 1 .Near).source (x, y) = s.source (x, y) := by
  simp only [Scale.src]
  norm_num
  rw [i32cast_intCast hx1 hx2, i32cast_intCast hy1 hy2]

/-- Witness for claim C8 at `x = 10`, `y = -7`. -/
theorem scale_one_near_identity_witness :
    (Scale.src (constSrc ⟨1, 0, 0, 1⟩) 1 .Near).source (10, -7) =
      (constSrc ⟨1, 0, 0, 1⟩).source (10, -7) :=
  scale_one_near_identity (constSrc ⟨1, 0, 0, 1⟩) 10 (-7)
    (by decide) (by decide) (by decide) (by decide)

/-- Counterexample to claim C9: the factor `2^-24` is strictly positive, yet
`Scale::new` rejects it, because the assertion compares against
`f32::EPSILON = 2^-23`, not against zero. -/
theorem scale_new_positive_factor_refuted :
    (0 : ℚ) < 1 / 2 ^ 24 ∧
    Scale.new (constSrc Color.zero) (1 / 2 ^ 24) .Near = none := by
  constructor
  · norm_num
  · rw [Scale.new, if_neg]
    rw [f32Epsilon]
    norm_num

/-- Claim C9 as amended: `Scale::new` succeeds exactly when the factor
exceeds `f32::EPSILON = 2^-23`; the check happens at construction, so a
constructed scale never fails later. -/
theorem scale_new_threshold_iff (s : Src) (factor : ℚ) (filter : SFilter) :
    (Scale.new s factor filter).isSome ↔ f32Epsilon < factor := by
  rw [Scale.new]
  split <;> simp [*]

theorem blurFold_general (s : Src) (r : Int) (p : Int × Int) (l : List (Int × Int))
    (c : Color) (n : Nat) :
    l.foldl
      (fun acc d =>
        if d.1 * d.1 + d.2 * d.2 < r * r then
          ((acc.1.add (s.source (p.1 + d.1, p.2 + d.2))), acc.2 + 1)
        else acc)
      (c, n) =
    (((l.filter fun d => decide (d.1 * d.1 + d.2 * d.2 < r * r)).map
        fun d => s.source (p.1 + d.1, p.2 + d.2)).foldl Color.add c,
     n + (l.filter fun d => decide (d.1 * d.1 + d.2 * d.2 < r * r)).length) := by
  induction l generalizing c n with
  | nil => simp
  | cons d l ih =>
    by_cases hd : d.1 * d.1 + d.2 * d.2 < r * r
    · rw [List.foldl_cons, if_pos hd, ih, List.filter_cons_of_pos (by simpa using hd),
        List.map_cons, List.foldl_cons, List.length_cons]
      simp only [Prod.mk.injEq]
      exact ⟨trivial, by omega⟩
    · rw [List.foldl_cons, if_neg hd, ih, List.filter_cons_of_neg (by simpa using hd)]

theorem blurLoop_eq (s : Src) (r : Int) (p : Int × Int) :
    blurLoop s r p =
      (colorListSum ((discOffsets r).map fun d => s.source (p.1 + d.1, p.2 + d.2)),
       (discOffsets r).length) := by
  unfold blurLoop discOffsets colorListSum
  rw [blurFold_general]
  simp

theorem blurCore_eq (s : Src) (r : Int) (p : Int × Int) :
    blurCore s r p =
      if (discOffsets r).length = 0 then Color.zero else blurFormula s r p := by
  unfold blurCore
  rw [blurLoop_eq]
  by_cases h : (discOffsets r).length = 0
  · have he : discOffsets r = [] := List.length_eq_zero.mp h
    simp [h, he, colorListSum]
  · simp [h, Nat.pos_of_ne_zero h, blurFormula]

theorem blurCore_radius_zero (s : Src) (p : Int × Int) : blurCore s 0 p = Color.zero := by
  unfold blurCore blurLoop Blur.offsets intRange
  simp

/-- Claim C7 as amended: `Blur` with radius 0 returns the default colour at
every coordinate, and whenever the queried point is inside the blur's borders
(or the child reports none), the result is the default colour when no offset
of `[-r, r) x [-r, r)` satisfies `dx*dx + dy*dy < r*r` (the division by the
count is guarded and never reached) and the sum of the child's colours over
exactly the contributing offsets times the reciprocal of their count when
the count is positive.  Outside the blur's own borders the early-out applies
instead — the qualifier the original claim lacked. -/
theorem blur_disc_average (s : Src) (radius : Nat) (p : Int × Int) :
    (Blur.src s 0).source p = Color.zero ∧
    ((∀ b, s.borders = some b → (expandBorders b (radius : Int)).contains p) →
      (Blur.src s radius).source p =
        if (discOffsets (radius : Int)).length = 0 then Color.zero
        else blurFormula s (radius : Int) p) := by
  constructor
  · rcases hb : s.borders with _ | b
    · simp [Blur.src, hb, blurCore_radius_zero]
    · simp only [Blur.src, hb]
      split
      · exact blurCore_radius_zero s p
      · rfl
  · intro hin
    rcases hb : s.borders with _ | b
    · simp [Blur.src, hb, blurCore_eq]
    · have hc := hin b hb
      simp [Blur.src, hb, hc, blurCore_eq]

/-- Witness for claim C7: a borderless constant source, radius 1, queried at
the origin. -/
theorem blur_disc_average_witness :
    (Blur.src (constSrc ⟨1, 0, 0, 1⟩) 1).source (0, 0) =
      if (discOffsets ((1 : Nat) : Int)).length = 0 then Color.zero
      else blurFormula (constSrc ⟨1, 0, 0, 1⟩) ((1 : Nat) : Int) (0, 0) :=
  (blur_disc_average (constSrc ⟨1, 0, 0, 1⟩) 1 (0, 0)).2 (fun _ h => nomatch h)

/-- Counterexample to claim C7 as stated: for the source `liarBox` (opaque
white everywhere, borders `(0,0)-(0,0)`) with radius 1 at the point
`(10, 10)`, one offset contributes (the count is positive), yet the code
returns the default colour by the borders early-out, not the sum times the
reciprocal of the count, which is opaque white. -/
theorem blur_outside_borders_refutes_average :
    0 < (discOffsets 1).length ∧
    (Blur.src liarBox 1).source (10, 10) = Color.zero ∧
    blurFormula liarBox 1 (10, 10) = ⟨1, 1, 1, 1⟩ := by
  have hd : discOffsets 1 = [(0, 0)] := by decide
  refine ⟨by rw [hd]; decide, ?_, ?_⟩
  · decide
  · rw [blurFormula, hd]
    simp [liarBox, colorListSum, Color.add, Color.scaleBy, Color.zero]

/-- Claim C5 as amended: the Linear filter computes, per axis, the child
coordinate `c = (1/factor) * coord`, its base point as `c` truncated toward
zero (the Rust `as i32` cast — not `floor`, which differs on negative
non-integer coordinates) and the second point and weight from the fractional
part `f = |c|.fract()` as in `linear_points`; the full result is two 1-D
lerps along x then one lerp along y over those points, the degenerate
`f = 0.5` axes collapsing to single samples. -/
theorem scale_linear_trunc_bilinear (s : Src) (factor : ℚ) (p : Int × Int)
    (h : 0 < factor) :
    (Scale.src s factor .Linear).source p = scaleLinearSpec s factor p := by
  rcases hX : linear_points ((1 / factor) * (p.1 : ℚ)) with ⟨x0, x1, xt⟩
  rcases hY : linear_points ((1 / factor) * (p.2 : ℚ)) with ⟨y0, y1, yt⟩
  simp only [Scale.src, scaleLinearSpec, hX, hY]
  by_cases hx : x0 = x1 <;> by_cases hy : y0 = y1 <;>
    simp [hx, hy, Color.lerpc_self]

/-- Witness for claim C5: a constant source scaled by factor 2, queried at
`(1, 1)`. -/
theorem scale_linear_trunc_bilinear_witness :
    (Scale.src (constSrc ⟨1, 2, 3, 4⟩) 2 .Linear).source (1, 1) =
      scaleLinearSpec (constSrc ⟨1, 2, 3, 4⟩) 2 (1, 1) :=
  scale_linear_trunc_bilinear (constSrc ⟨1, 2, 3, 4⟩) 2 (1, 1) zero_lt_two

/-- Counterexample to claim C5 as stated: scaling the x-ramp source by factor
10 and sampling at `(-13, 0)` puts the child coordinate at `-1.3`; the code
truncates toward zero and reads points `-1` and `-2` (red channel `-6/5`),
while the claim's floor-based rule prescribes points `-2` and `-3` (red
channel `-11/5`). -/
theorem scale_linear_floor_refuted :
    (Scale.src xRamp 10 .Linear).source (-13, 0) ≠ scaleLinearFloorSpec xRamp 10 (-13, 0) := by
  have habs : |(-13 / 10 : ℚ)| = 13 / 10 := by norm_num
  have hfr : Int.fract |(-13 / 10 : ℚ)| = 3 / 10 := by
    rw [habs, Int.fract]
    norm_num
  have hfr0 : Int.fract |(0 : ℚ)| = 0 := by
    rw [abs_zero, Int.fract]
    norm_num
  have hic : i32cast (-13 / 10) = -1 := by
    rw [i32cast, ratTrunc]
    norm_num
  have hic0 : i32cast (0 : ℚ) = 0 := by
    rw [i32cast, ratTrunc]
    norm_num
  have hfl : ⌊(-13 / 10 : ℚ)⌋ = -2 := by norm_num
  have hfl0 : ⌊(0 : ℚ)⌋ = 0 := by norm_num
  have hpx : linear_points ((-13 : ℚ) / 10) = (-1, -2, 1 / 5) := by
    rw [linear_points]
    rw [show ((-13 : ℚ) / 10) = (-13 / 10 : ℚ) by norm_num] at *
    rw [hfr, hic]
    norm_num [wrap32]
  have hpy : linear_points (0 : ℚ) = (0, -1, 1 / 2) := by
    rw [linear_points, hfr0, hic0]
    norm_num [wrap32]
  have hqx : linear_points_floor ((-13 : ℚ) / 10) = (-2, -3, 1 / 5) := by
    rw [linear_points_floor]
    rw [show ((-13 : ℚ) / 10) = (-13 / 10 : ℚ) by norm_num] at *
    rw [hfr, hfl]
    norm_num
  have hqy : linear_points_floor (0 : ℚ) = (0, -1, 1 / 2) := by
    rw [linear_points_floor, hfr0, hfl0]
    norm_num
  have hL : (Scale.src xRamp 10 .Linear).source (-13, 0) = ⟨-6 / 5, 0, 0, 0⟩ := by
    simp only [Scale.src, xRamp]
    rw [show ((1 : ℚ) / 10) * (((-13 : Int) : Int) : ℚ) = (-13 : ℚ) / 10 by norm_num,
      show ((1 : ℚ) / 10) * (((0 : Int) : Int) : ℚ) = (0 : ℚ) by norm_num]
    rw [hpx, hpy]
    norm_num [Color.lerpc, lerp]
  have hR : scaleLinearFloorSpec xRamp 10 (-13, 0) = ⟨-11 / 5, 0, 0, 0⟩ := by
    simp only [scaleLinearFloorSpec, xRamp]
    rw [show ((1 : ℚ) / 10) * (((-13 : Int) : Int) : ℚ) = (-13 : ℚ) / 10 by norm_num,
      show ((1 : ℚ) / 10) * (((0 : Int) : Int) : ℚ) = (0 : ℚ) by norm_num]
    rw [hqx, hqy]
    norm_num [Color.lerpc, lerp]
  rw [hL, hR]
  intro hcontra
  have hrr := congrArg Color.r hcontra
  norm_num at hrr

/-- Claim C2, evaluated at the failing input: for a 1-by-1 child with borders
`(0,0)-(0,0)` and offset `(1, 0)`, `Offset::borders` subtracts the offset and
reports the rectangle `(-1,-1) x (0,0)`, while `Offset::source` maps the
output point `(1, 0)` to the child's `(0, 0)` (inside the child's borders) —
so the reported rectangle does not contain the point whose query lands in
the child's borders, contradicting the claimed characterisation (which
requires the rectangle translated by `+(dx, dy)`, here `(1,1) x (0,0)`). -/
theorem offset_borders_direction_bug :
    (Offset.src unitBox (1, 0)).borders = some { w := (-1, -1), h := (0, 0) } ∧
    (Offset.src unitBox (1, 0)).source (1, 0) = ⟨1, 1, 1, 1⟩ ∧
    Borders.contains { w := (-1, -1), h := (0, 0) } (1, 0) = false := by
  decide

/-- Claim C1, evaluated at the failing input: rendering the alpha-ramp source
(alpha = y) at size `(width, height) = (2, 3)` puts `[0, 0, 0, 0]` at byte
offset `(1*2 + 0)*4 = 8` — the row-major position of pixel `(0, 1)` — while
the claim requires that chunk to hold the bytes of `source.source((0, 1))`,
which are `[0, 0, 0, 255]`; the code computes the sample row as
`n / height` instead of `n / width`. -/
theorem make_row_bug :
    ((make alphaRamp 2 3).drop 8).take 4 = [0, 0, 0, 0] ∧
    (alphaRamp.source (0, 1)).into_byte_array = [0, 0, 0, 255] := by
  have hm : make alphaRamp 2 3 =
      [0, 0, 0, 0, 0, 0, 0, 0, 0, 0, 0, 0, 0, 0, 0, 255, 0, 0, 0, 255, 0, 0, 0, 255] := by
    rw [make]
    rw [show (2 * 3 : Nat) = 6 by norm_num]
    rw [show List.range 6 = [0, 1, 2, 3, 4, 5] from rfl]
    simp only [List.flatMap_cons, List.flatMap_nil, List.append_nil]
    norm_num [alphaRamp, wrap32, Color.into_byte_array, byteOfChannel, ratTrunc]
  constructor
  · rw [hm]
    decide
  · rw [show alphaRamp.source (0, 1) = ⟨0, 0, 0, ((1 : Int) : ℚ)⟩ from rfl]
    rw [Color.into_byte_array]
    norm_num [byteOfChannel, ratTrunc]

/-- Witness for claim C4: an opaque red first layer over an opaque green
second layer at the origin. -/
theorem stack_opaque_first_layer_witness :
    (Stack.src (constSrc ⟨1, 0, 0, 1⟩ :: [constSrc ⟨0, 1, 0, 1⟩])).source (0, 0) =
      (constSrc ⟨1, 0, 0, 1⟩).source (0, 0) ∧
    stackRun (constSrc ⟨1, 0, 0, 1⟩ :: [constSrc ⟨0, 1, 0, 1⟩]) (0, 0) Color.zero =
      ((constSrc ⟨1, 0, 0, 1⟩).source (0, 0), 1) :=
  stack_opaque_first_layer (constSrc ⟨1, 0, 0, 1⟩) [constSrc ⟨0, 1, 0, 1⟩] (0, 0) rfl
